import Mathlib

/-!
Verification of the TaskManager backend (Express + Mongoose + zod).

Shallow embedding of the task service (`src/services/task.service.ts`),
the task controller (`src/controllers/task.controller.ts`), the zod
request schemas (`src/routes/task.schemas.ts`) and the auth service
(`src/services/auth.service.ts`).

Modelling conventions:
- Mongo documents are Lean structures; a collection is a `List`.
- `Date` values are absolute timestamps in milliseconds (`Nat`).
- `findOne` is `List.find?` (first match in natural order),
  `findOneAndDelete` is `List.eraseP` (removes the first match), and a
  mongoose `save` / `findOneAndUpdate` replaces the document with the
  matching (unique) key.
- Cryptographic primitives (sha256, bcrypt hash/compare) and random token
  generation are opaque: they are passed in as explicit function / value
  arguments.
-/

namespace TaskManager

/-! ### Data model: `src/models/Task.ts` -/

inductive Priority
  | low
  | medium
  | high
deriving Repr, DecidableEq

/-- Rank of a priority in the lexicographic order of the stored strings:
MongoDB keeps `priority` as a string and compares strings, so for sorting
purposes "high" < "low" < "medium". -/
def Priority.mongoRank : Priority → Nat
  | .high => 0
  | .low => 1
  | .medium => 2

/-- A task document.  `user` is the owning user's id (`ObjectId` ref),
`createdAt`/`updatedAt` come from mongoose `timestamps: true`. -/
structure Task where
  id : String
  user : String
  title : String
  description : Option String := none
  priority : Priority := .medium
  dueDate : Option Nat := none
  completed : Bool := false
  createdAt : Nat := 0
  updatedAt : Nat := 0
deriving Repr, DecidableEq

/-! ### List-query parameters: `listQuerySchema` in `src/routes/task.schemas.ts` -/

inductive SortField
  | createdAt
  | dueDate
  | priority
deriving Repr, DecidableEq

inductive SortOrder
  | asc
  | desc
deriving Repr, DecidableEq

/-- The validated query object handed to `listTasks` (after zod parsing,
with zod's defaults applied). -/
structure ListQuery where
  search : Option String := none
  priority : Option Priority := none
  completed : Option Bool := none
  dueBefore : Option Nat := none
  dueAfter : Option Nat := none
  page : Nat := 1
  limit : Nat := 20
  sort : SortField := .createdAt
  order : SortOrder := .desc
deriving Repr, DecidableEq

/-- The raw query string parameters as Express delivers them (all strings).
`dueBefore`/`dueAfter` are ISO-8601 datetime strings on the wire; zod only
checks the format, and `listTasks` converts them with `new Date(...)`, so
the model abstracts a valid datetime string to the timestamp it denotes. -/
structure WireQuery where
  search : Option String := none
  priority : Option String := none
  completed : Option String := none
  dueBefore : Option Nat := none
  dueAfter : Option Nat := none
  page : Option String := none
  limit : Option String := none
  sort : Option String := none
  order : Option String := none
deriving Repr, DecidableEq

def parsePriority : String → Option Priority
  | "low" => some .low
  | "medium" => some .medium
  | "high" => some .high
  | _ => none

def parseSortField : String → Option SortField
  | "createdAt" => some .createdAt
  | "dueDate" => some .dueDate
  | "priority" => some .priority
  | _ => none

def parseSortOrder : String → Option SortOrder
  | "asc" => some .asc
  | "desc" => some .desc
  | _ => none

/-- `z.coerce.boolean()` applies JavaScript `Boolean(...)` to the wire
string: every nonempty string is truthy — including the string "false". -/
def coerceBoolean (s : String) : Bool := !(s == "")

/-- `listQuerySchema.query`: validates/coerces each parameter and applies
the declared defaults (`page = 1`, `limit = 20`, `sort = createdAt`,
`order = desc`); returns `none` on a validation failure (HTTP 400). -/
def parseListQuery (w : WireQuery) : Option ListQuery := do
  let priority ← match w.priority with
    | none => pure none
    | some s => match parsePriority s with
      | some p => pure (some p)
      | none => none
  let page ← match w.page with
    | none => pure 1
    | some s => match s.toNat? with
      | some n => if 1 ≤ n then pure n else none
      | none => none
  let limit ← match w.limit with
    | none => pure 20
    | some s => match s.toNat? with
      | some n => if 1 ≤ n ∧ n ≤ 100 then pure n else none
      | none => none
  let sort ← match w.sort with
    | none => pure SortField.createdAt
    | some s => parseSortField s
  let order ← match w.order with
    | none => pure SortOrder.desc
    | some s => parseSortOrder s
  pure { search := w.search
         priority := priority
         completed := w.completed.map coerceBoolean
         dueBefore := w.dueBefore
         dueAfter := w.dueAfter
         page := page
         limit := limit
         sort := sort
         order := order }

/-! ### The query filter built by `listTasks` (`src/services/task.service.ts`) -/

/-- The Mongo filter object assembled by `listTasks`: a conjunction of an
owner-scope clause and the optional clauses. `dueLte`/`dueGte` are the
`$lte`/`$gte` bounds placed under `filter.dueDate`; `text` is the
`$text: { $search: ... }` clause. -/
structure Filter where
  user : String
  priority : Option Priority := none
  completed : Option Bool := none
  dueLte : Option Nat := none
  dueGte : Option Nat := none
  text : Option String := none
deriving Repr, DecidableEq

/-- Mirrors the `if`-chain of `listTasks`:
`filter.user = userId` always; `if (priority)` — a parsed enum value is
always truthy; `if (typeof completed === 'boolean')` — set whenever the
(coerced) value is present, `false` included; `if (dueBefore)` /
`if (dueAfter)` — a validated datetime string is nonempty, hence truthy;
`if (search)` — the empty string is falsy, so no text clause for `""`. -/
def buildFilter (userId : String) (q : ListQuery) : Filter :=
  { user := userId
    priority := q.priority
    completed := q.completed
    dueLte := q.dueBefore
    dueGte := q.dueAfter
    text := match q.search with
      | some s => if s == "" then none else some s
      | none => none }

/-- MongoDB `$text` semantics over the text index on title+description:
the document matches when some search term occurs among the words of the
indexed fields (stemming and scoring omitted). -/
def textMatches (s : String) (t : Task) : Bool :=
  (s.splitOn " ").any fun w =>
    (t.title.splitOn " ").contains w
    || ((t.description.getD "").splitOn " ").contains w

/-- Whether a document satisfies the conjunctive filter.  A `$lte`/`$gte`
comparison against a missing `dueDate` field does not match. -/
def matchesFilter (f : Filter) (t : Task) : Bool :=
  t.user == f.user
  && (match f.priority with
      | some p => t.priority == p
      | none => true)
  && (match f.completed with
      | some b => t.completed == b
      | none => true)
  && (match f.dueLte with
      | some b => match t.dueDate with
        | some d => decide (d ≤ b)
        | none => false
      | none => true)
  && (match f.dueGte with
      | some a => match t.dueDate with
        | some d => decide (a ≤ d)
        | none => false
      | none => true)
  && (match f.text with
      | some s => textMatches s t
      | none => true)

/-! ### Sorting: `sortSpec = { [sort]: order === 'asc' ? 1 : -1 }` -/

/-- Mongo sorts a missing (`null`) date before every concrete date in
ascending order. -/
def optNatLE : Option Nat → Option Nat → Bool
  | none, _ => true
  | some _, none => false
  | some a, some b => decide (a ≤ b)

def keyLE (field : SortField) (a b : Task) : Bool :=
  match field with
  | .createdAt => decide (a.createdAt ≤ b.createdAt)
  | .dueDate => optNatLE a.dueDate b.dueDate
  | .priority => decide (a.priority.mongoRank ≤ b.priority.mongoRank)

def sortLE (field : SortField) (ord : SortOrder) (a b : Task) : Bool :=
  match ord with
  | .asc => keyLE field a b
  | .desc => keyLE field b a

/-! ### The task service: `src/services/task.service.ts` -/

/-- `{items, page, limit, total}` returned by `listTasks`. -/
structure ListResult where
  items : List Task
  page : Nat
  limit : Nat
  total : Nat
deriving Repr, DecidableEq

/-- `listTasks(userId, query)`: builds the filter, then runs the page
query (`sort`, `skip = (page-1)*limit`, `limit`) and the matching count
over the same filter. -/
def listTasks (db : List Task) (userId : String) (q : ListQuery) : ListResult :=
  let f := buildFilter userId q
  let matching := db.filter (matchesFilter f)
  let sorted := matching.mergeSort (sortLE q.sort q.order)
  let skip := (q.page - 1) * q.limit
  { items := (sorted.drop skip).take q.limit
    page := q.page
    limit := q.limit
    total := matching.length }

/-- The validated body of `POST /tasks` (`createTaskSchema`), with zod's
defaults applied. -/
structure CreateTaskData where
  title : String
  description : Option String := none
  priority : Priority := .medium
  dueDate : Option Nat := none
  completed : Bool := false
deriving Repr, DecidableEq

/-- `createTask(userId, data)`: `Task.create({ ...data, user: userId })` —
the owner field is set from the authenticated caller, overriding anything
in the body; `newId` is the fresh `_id`, `now` feeds the timestamps. -/
def createTask (userId : String) (data : CreateTaskData) (newId : String) (now : Nat) : Task :=
  { id := newId
    user := userId
    title := data.title
    description := data.description
    priority := data.priority
    dueDate := data.dueDate
    completed := data.completed
    createdAt := now
    updatedAt := now }

/-- `getTask(userId, id)`: `Task.findOne({ _id: id, user: userId })`. -/
def getTask (db : List Task) (userId : String) (id : String) : Option Task :=
  db.find? fun t => t.id == id && t.user == userId

/-- The validated body of `PATCH /tasks/:id` (`updateTaskSchema`): every
field optional; only supplied fields are present. -/
structure UpdatePatch where
  title : Option String := none
  description : Option String := none
  priority : Option Priority := none
  dueDate : Option Nat := none
  completed : Option Bool := none
deriving Repr, DecidableEq

/-- Applying the patch document to a task (mongoose treats the plain
patch object as `$set` of exactly the supplied fields); `timestamps`
refreshes `updatedAt`. -/
def applyPatch (t : Task) (p : UpdatePatch) (now : Nat) : Task :=
  { t with
    title := p.title.getD t.title
    description := match p.description with
      | some d => some d
      | none => t.description
    priority := p.priority.getD t.priority
    dueDate := match p.dueDate with
      | some d => some d
      | none => t.dueDate
    completed := p.completed.getD t.completed
    updatedAt := now }

/-- `updateTask(userId, id, patch)`:
`Task.findOneAndUpdate({ _id: id, user: userId }, patch, { new: true })` —
updates the document with that (unique) `_id` when it is owned by the
caller, and returns the updated document; `none` otherwise. -/
def updateTask (db : List Task) (userId : String) (id : String) (p : UpdatePatch)
    (now : Nat) : List Task × Option Task :=
  match db.find? (fun t => t.id == id && t.user == userId) with
  | none => (db, none)
  | some t =>
    let t2 := applyPatch t p now
    (db.map (fun v => if v.id == t.id then t2 else v), some t2)

/-- `deleteTask(userId, id)`:
`Task.findOneAndDelete({ _id: id, user: userId })` — removes the first
(owner-scoped) match, if any; the result is discarded. -/
def deleteTask (db : List Task) (userId : String) (id : String) : List Task :=
  db.eraseP fun t => t.id == id && t.user == userId

/-- The `remove` controller (`src/controllers/task.controller.ts`): calls
`deleteTask` and unconditionally answers `204`, whether or not anything
was deleted. -/
def removeTask (db : List Task) (userId : String) (id : String) : List Task × Nat :=
  (deleteTask db userId id, 204)

/-! ### Auth: `src/models/User.ts` and `src/services/auth.service.ts` -/

/-- A user document (`UserDoc`). -/
structure UserRec where
  uid : String
  email : String
  passwordHash : String
  name : Option String := none
  themeBackgroundUrl : Option String := none
  passwordResetTokenHash : Option String := none
  passwordResetExpires : Option Nat := none
deriving Repr, DecidableEq

/-- The public user view `{ id, email, name }` returned by the auth
endpoints; the signed bearer token carries the same three fields as its
payload (`signToken`). -/
structure PublicUser where
  id : String
  email : String
  name : Option String := none
deriving Repr, DecidableEq

/-- The typed errors thrown by the auth service, with their HTTP status. -/
inductive AuthErr
  | emailAlreadyExists
  | invalidCredentials
  | invalidOrExpiredResetToken
deriving Repr, DecidableEq

def AuthErr.status : AuthErr → Nat
  | .emailAlreadyExists => 409
  | .invalidCredentials => 401
  | .invalidOrExpiredResetToken => 400

/-- `login(email, password)`: `findOne({ email })`, then
`bcrypt.compare`; the same `InvalidCredentials` error is thrown both when
no user exists and when the hash comparison fails. -/
def login (db : List UserRec) (email password : String)
    (bcryptCompare : String → String → Bool) : Except AuthErr PublicUser :=
  match db.find? (fun u => u.email == email) with
  | none => .error .invalidCredentials
  | some u =>
    if bcryptCompare password u.passwordHash then
      .ok { id := u.uid, email := u.email, name := u.name }
    else
      .error .invalidCredentials

/-- The body of the `/auth/forgot` response: `{ ok: true }`, plus the raw
token outside production. -/
structure ForgotResponse where
  ok : Bool
  token : Option String := none
deriving Repr, DecidableEq

/-- `new Date(Date.now() + 60 * 60 * 1000)` — the reset window, in ms. -/
def resetWindowMs : Nat := 60 * 60 * 1000

/-- `requestPasswordReset(email)`: silently succeeds when the email is
unknown; otherwise stores `sha256(rawToken)` and `now + 1h` on the user
(overwriting any prior pending reset) and saves.  `rawToken` stands for
the 32 random bytes in hex; the response carries the raw token only when
`NODE_ENV !== 'production'`. -/
def requestPasswordReset (db : List UserRec) (email rawToken : String) (now : Nat)
    (sha256 : String → String) (isProduction : Bool) :
    List UserRec × ForgotResponse :=
  match db.find? (fun u => u.email == email) with
  | none => (db, { ok := true })
  | some u =>
    let u2 := { u with
      passwordResetTokenHash := some (sha256 rawToken)
      passwordResetExpires := some (now + resetWindowMs) }
    (db.map (fun v => if v.uid == u.uid then u2 else v),
     { ok := true, token := if isProduction then none else some rawToken })

/-- The `findOne` predicate of `resetPassword`:
`{ passwordResetTokenHash: tokenHash, passwordResetExpires: { $gt: now } }`
— a missing expiry never satisfies `$gt`. -/
def resetMatches (tokenHash : String) (now : Nat) (u : UserRec) : Bool :=
  u.passwordResetTokenHash == some tokenHash
  && (match u.passwordResetExpires with
      | some e => decide (now < e)
      | none => false)

/-- `resetPassword(rawToken, newPassword, name?)`: looks up a user whose
stored hash equals `sha256(rawToken)` with an unexpired window; on a miss
throws `InvalidOrExpiredResetToken` (the store is untouched); on success
replaces `passwordHash`, optionally updates the trimmed name, clears both
reset fields and saves. -/
def resetPassword (db : List UserRec) (rawToken newPassword : String)
    (name : Option String) (now : Nat) (sha256 bcryptHash : String → String) :
    List UserRec × Except AuthErr PublicUser :=
  match db.find? (resetMatches (sha256 rawToken) now) with
  | none => (db, .error .invalidOrExpiredResetToken)
  | some u =>
    let newName := match name with
      | some n => if n.trim == "" then u.name else some n.trim
      | none => u.name
    let u2 := { u with
      passwordHash := bcryptHash newPassword
      name := newName
      passwordResetTokenHash := none
      passwordResetExpires := none }
    (db.map (fun v => if v.uid == u.uid then u2 else v),
     .ok { id := u.uid, email := u.email, name := newName })

/-- The state of a user after `requestPasswordReset` touched it. -/
def afterRequest (u : UserRec) (rawToken : String) (now : Nat)
    (sha256 : String → String) : UserRec :=
  { u with
    passwordResetTokenHash := some (sha256 rawToken)
    passwordResetExpires := some (now + resetWindowMs) }

/-! ### Concrete sample data used by witnesses and counterexamples -/

/-- The identity, standing in for an arbitrary concrete hash function in
closed evaluations. -/
def idHash : String → String := fun s => s

/-- A concrete bcrypt-compare standing: plaintext equality. -/
def eqCompare : String → String → Bool := fun a b => a == b

def taskA : Task := { id := "a", user := "u", title := "A", createdAt := 1 }
def taskB : Task := { id := "b", user := "u", title := "B", createdAt := 2 }
def taskC : Task := { id := "c", user := "u", title := "C", createdAt := 3 }

/-- Three tasks of owner `"u"` created in order A, B, C. -/
def dbABC : List Task := [taskA, taskB, taskC]

/-- `page=2, limit=1, sort=createdAt, order=asc`. -/
def qABC : ListQuery := { page := 2, limit := 1, sort := .createdAt, order := .asc }

/-- A task owned by `"u1"`. -/
def taskU1 : Task := { id := "t1", user := "u1", title := "A" }

/-- Wire query `?completed=false`. -/
def wireCompletedFalse : WireQuery := { completed := some "false" }

/-- The filter a wire-level list request ends up with: zod parsing
followed by `buildFilter`. -/
def filterOfWire (userId : String) (w : WireQuery) : Option Filter :=
  (parseListQuery w).map (buildFilter userId)

/-- A user with a pending reset whose (modelled) token hash is `"T"` and
expiry 10. -/
def userPending : UserRec :=
  { uid := "u1", email := "alice@example.com", passwordHash := "ph"
    passwordResetTokenHash := some "T", passwordResetExpires := some 10 }

/-- A user with no reset pending. -/
def userAlice : UserRec :=
  { uid := "u1", email := "alice@example.com", passwordHash := "ph" }

/-- The body `{completed: true}` of the patch request. -/
def patchCompletedTrue : UpdatePatch := { completed := some true }

/-- The store after two consecutive `requestPasswordReset` calls on the
same email. -/
def afterTwoRequests (db : List UserRec) (email raw1 raw2 : String) (t1 t2 : Nat)
    (sha : String → String) (prod : Bool) : List UserRec :=
  (requestPasswordReset (requestPasswordReset db email raw1 t1 sha prod).1
    email raw2 t2 sha prod).1

/-! ### Helper lemmas -/

/-- `find?` returns the designated element when it is a match and every
match is that element (uniqueness of the lookup key). -/
theorem find?_eq_some_of_unique {α : Type} (p : α → Bool) {l : List α} {u : α}
    (hu : u ∈ l) (hp : p u = true) (huniq : ∀ v ∈ l, p v = true → v = u) :
    l.find? p = some u := by
  induction l with
  | nil => cases hu
  | cons a tl ih =>
    by_cases ha : p a = true
    · have hau : a = u := huniq a (List.mem_cons_self a tl) ha
      subst hau
      exact List.find?_cons_of_pos _ ha
    · have hu' : u ∈ tl := by
        rcases List.mem_cons.mp hu with h | h
        · subst h; exact absurd hp ha
        · exact h
      have huniq' : ∀ v ∈ tl, p v = true → v = u := fun v hv hpv =>
        huniq v (List.mem_cons_of_mem _ hv) hpv
      simpa [List.find?_cons_of_neg _ ha] using ih hu' huniq'

/-- When nothing matches the reset predicate, `resetPassword` fails with
`InvalidOrExpiredResetToken` and leaves the store untouched. -/
theorem resetPassword_fails_of_no_match (db : List UserRec)
    (raw pw : String) (nm : Option String) (now : Nat) (sha bc : String → String)
    (h : ∀ v ∈ db, resetMatches (sha raw) now v = false) :
    resetPassword db raw pw nm now sha bc
      = (db, Except.error AuthErr.invalidOrExpiredResetToken) := by
  have hfind : db.find? (resetMatches (sha raw) now) = none := by
    rw [List.find?_eq_none]
    intro v hv
    simp [h v hv]
  simp [resetPassword, hfind]

/-- The store after a successful `requestPasswordReset` on a unique email:
exactly the owner of the email is overwritten with the fresh token hash
and expiry. -/
theorem requestPasswordReset_effect (db : List UserRec) (u : UserRec)
    (email raw : String) (t : Nat) (sha : String → String) (prod : Bool)
    (hu : u ∈ db) (hemail : u.email = email)
    (hmail_uniq : ∀ v ∈ db, v.email = email → v = u) :
    (requestPasswordReset db email raw t sha prod).1
      = db.map (fun v => if v.uid == u.uid then afterRequest u raw t sha else v) := by
  have hfind : db.find? (fun v => v.email == email) = some u :=
    find?_eq_some_of_unique _ hu (by simp [hemail])
      (fun v hv hpv => hmail_uniq v hv (by simpa using hpv))
  simp [requestPasswordReset, hfind, afterRequest]

/-- The task comparator is transitive (per sort field). -/
theorem keyLE_trans (f : SortField) (a b c : Task)
    (h1 : keyLE f a b = true) (h2 : keyLE f b c = true) : keyLE f a c = true := by
  cases f <;> simp only [keyLE] at h1 h2 ⊢
  · simp only [decide_eq_true_eq] at h1 h2 ⊢
    omega
  · cases ha : a.dueDate <;> cases hb : b.dueDate <;> cases hc : c.dueDate <;>
      simp_all [optNatLE]
    omega
  · simp only [decide_eq_true_eq] at h1 h2 ⊢
    omega

/-- The task comparator is total (per sort field). -/
theorem keyLE_total (f : SortField) (a b : Task) :
    (keyLE f a b || keyLE f b a) = true := by
  cases f <;> simp only [keyLE]
  · simp only [Bool.or_eq_true, decide_eq_true_eq]
    omega
  · cases a.dueDate <;> cases b.dueDate <;> simp [optNatLE]
    omega
  · simp only [Bool.or_eq_true, decide_eq_true_eq]
    omega

/-- The requested sort relation is transitive. -/
theorem sortLE_trans (f : SortField) (o : SortOrder) (a b c : Task)
    (h1 : sortLE f o a b = true) (h2 : sortLE f o b c = true) : sortLE f o a c = true := by
  cases o <;> simp only [sortLE] at h1 h2 ⊢
  · exact keyLE_trans f a b c h1 h2
  · exact keyLE_trans f c b a h2 h1

/-- The requested sort relation is total. -/
theorem sortLE_total (f : SortField) (o : SortOrder) (a b : Task) :
    (sortLE f o a b || sortLE f o b a) = true := by
  cases o <;> simp only [sortLE]
  · exact keyLE_total f a b
  · exact keyLE_total f b a

/-! ### Claim theorems -/

/-- C1: Owner-scope invariant — a created task's owner field is the
authenticated caller's id; `getTask` returns a task only when it carries
the requested id and is owned by the caller; every task in a `listTasks`
page is owned by the caller. -/
theorem task_owner_scope (db : List Task) (uid id newId : String)
    (data : CreateTaskData) (now : Nat) (q : ListQuery) :
    (createTask uid data newId now).user = uid
    ∧ (∀ t : Task, getTask db uid id = some t → t.user = uid ∧ t.id = id)
    ∧ (∀ t ∈ (listTasks db uid q).items, t.user = uid) := by
  refine ⟨rfl, ?_, ?_⟩
  · intro t ht
    have h := List.find?_some ht
    simp only [Bool.and_eq_true, beq_iff_eq] at h
    exact ⟨h.2, h.1⟩
  · intro t ht
    simp only [listTasks] at ht
    have h1 := List.mem_of_mem_take ht
    have h2 := List.mem_of_mem_drop h1
    have h3 : t ∈ db.filter (matchesFilter (buildFilter uid q)) :=
      (List.mergeSort_perm _ _).mem_iff.mp h2
    have h4 := List.of_mem_filter h3
    simp only [matchesFilter, buildFilter, Bool.and_eq_true, beq_iff_eq] at h4
    exact h4.1.1.1.1.1

/-- Witness for C1: on the concrete store `dbABC`, `getTask` returns
`taskB`, whose owner is the requesting caller `"u"`. -/
theorem task_owner_scope_witness : taskB.user = "u" ∧ taskB.id = "b" :=
  (task_owner_scope dbABC "u" "b" "x" { title := "T" } 0 qABC).2.1 taskB rfl

unseal List.merge List.mergeSort in
/-- C7: `listTasks` pagination — `total` counts all matching tasks, a
page never exceeds `limit` items, and on a store with three tasks created
in order A, B, C the query `page=2, limit=1, sort=createdAt, order=asc`
returns exactly `[B]` with `total = 3`. -/
theorem listTasks_pagination (db : List Task) (uid : String) (q : ListQuery) :
    (listTasks db uid q).total
        = (db.filter (matchesFilter (buildFilter uid q))).length
    ∧ (listTasks db uid q).items.length ≤ q.limit
    ∧ (listTasks db uid q).items.Pairwise (fun a b => sortLE q.sort q.order a b = true)
    ∧ listTasks dbABC "u" qABC = { items := [taskB], page := 2, limit := 1, total := 3 } := by
  refine ⟨rfl, ?_, ?_, by decide⟩
  · simp only [listTasks]
    exact List.length_take_le _ _
  · have hp := @List.sorted_mergeSort Task (sortLE q.sort q.order)
      (fun a b c => sortLE_trans q.sort q.order a b c)
      (fun a b => sortLE_total q.sort q.order a b)
      (db.filter (matchesFilter (buildFilter uid q)))
    simp only [listTasks]
    exact hp.sublist ((List.take_sublist _ _).trans (List.drop_sublist _ _))

/-- C10: the dueDate range bounds are inclusive — `dueBefore` becomes the
`$lte` bound and `dueAfter` the `$gte` bound, conjoined on the same
`dueDate` field, and a task whose `dueDate` equals either supplied bound
satisfies the filter. -/
theorem dueDate_bounds_inclusive (uid : String) (a b : Nat) (q : ListQuery)
    (hq1 : q.priority = none) (hq2 : q.completed = none) (hq3 : q.search = none)
    (hb : q.dueBefore = some b) (ha : q.dueAfter = some a) :
    (buildFilter uid q).dueLte = some b
    ∧ (buildFilter uid q).dueGte = some a
    ∧ (∀ t : Task, t.user = uid → t.dueDate = some b → a ≤ b →
        matchesFilter (buildFilter uid q) t = true)
    ∧ (∀ t : Task, t.user = uid → t.dueDate = some a → a ≤ b →
        matchesFilter (buildFilter uid q) t = true) := by
  refine ⟨by simp [buildFilter, hb], by simp [buildFilter, ha], ?_, ?_⟩
  · intro t ht hd hab
    simp [matchesFilter, buildFilter, hq1, hq2, hq3, hb, ha, ht, hd, hab]
  · intro t ht hd hab
    simp [matchesFilter, buildFilter, hq1, hq2, hq3, hb, ha, ht, hd, hab]

/-- Witness for C10: with bounds `dueAfter = 2`, `dueBefore = 5`, a task
due exactly at 5 matches the filter. -/
theorem dueDate_bounds_inclusive_witness :
    matchesFilter
      (buildFilter "u" { dueBefore := some 5, dueAfter := some 2 })
      { id := "t", user := "u", title := "T", dueDate := some 5 } = true :=
  (dueDate_bounds_inclusive "u" 2 5 { dueBefore := some 5, dueAfter := some 2 }
      rfl rfl rfl rfl rfl).2.2.1
    { id := "t", user := "u", title := "T", dueDate := some 5 } rfl rfl (by decide)

/-- C9: partial-patch frame property — patching an owned task with
`{completed: true}` returns the task with only `completed` and
`updatedAt` changed (the record-update form fixes every other field to
its old value), and in general `applyPatch` leaves any unsupplied field
unchanged and never touches owner, id or `createdAt`. -/
theorem patch_frame (db : List Task) (uid id : String) (t : Task) (now : Nat)
    (ht : t ∈ db) (hid : t.id = id) (huser : t.user = uid)
    (huniq : ∀ v ∈ db, v.id = id → v = t) :
    (updateTask db uid id patchCompletedTrue now).2
        = some { t with completed := true, updatedAt := now }
    ∧ ∀ p : UpdatePatch,
        (p.title = none → (applyPatch t p now).title = t.title)
        ∧ (p.description = none → (applyPatch t p now).description = t.description)
        ∧ (p.priority = none → (applyPatch t p now).priority = t.priority)
        ∧ (p.dueDate = none → (applyPatch t p now).dueDate = t.dueDate)
        ∧ (p.completed = none → (applyPatch t p now).completed = t.completed)
        ∧ (applyPatch t p now).user = t.user
        ∧ (applyPatch t p now).createdAt = t.createdAt
        ∧ (applyPatch t p now).id = t.id := by
  constructor
  · have hfind : db.find? (fun v => v.id == id && v.user == uid) = some t := by
      refine find?_eq_some_of_unique _ ht (by simp [hid, huser]) ?_
      intro v hv hpv
      simp only [Bool.and_eq_true, beq_iff_eq] at hpv
      exact huniq v hv hpv.1
    simp [updateTask, hfind, applyPatch, patchCompletedTrue]
  · intro p
    refine ⟨?_, ?_, ?_, ?_, ?_, rfl, rfl, rfl⟩ <;> intro h <;> simp [applyPatch, h]

/-- Witness for C9: patching the concrete task `taskU1` with
`{completed: true}` yields the same task with only `completed` and
`updatedAt` changed. -/
theorem patch_frame_witness :
    (updateTask [taskU1] "u1" "t1" patchCompletedTrue 9).2
      = some { taskU1 with completed := true, updatedAt := 9 } :=
  (patch_frame [taskU1] "u1" "t1" taskU1 9 (by simp) rfl rfl
    (by intro v hv _; simpa using hv)).1

/-- C6 counterexample: an authenticated caller (`"u2"`) deleting another
user's task gets HTTP 204, not 401 or 404 — the claimed status is wrong
(the task is indeed not deleted). -/
theorem remove_crossUser_counterexample :
    removeTask [taskU1] "u2" "t1" = ([taskU1], 204)
    ∧ ¬((removeTask [taskU1] "u2" "t1").2 = 401 ∨ (removeTask [taskU1] "u2" "t1").2 = 404) := by
  decide

/-- C6 (amended): `DELETE /tasks/:id` on a task owned by a different user
is a silent no-op — the response status is 204 and the task store is
unchanged. -/
theorem remove_crossUser_noop (db : List Task) (caller id : String)
    (h : ∀ t ∈ db, t.id = id → t.user ≠ caller) :
    removeTask db caller id = (db, 204) := by
  simp only [removeTask, deleteTask, Prod.mk.injEq, and_true]
  rw [List.eraseP_of_forall_not]
  intro t htdb
  simp only [Bool.and_eq_true, beq_iff_eq, not_and]
  intro h1 h2
  exact h t htdb h1 h2

/-- Witness for C6 (amended): deleting `"t1"` (owned by `"u1"`) as caller
`"u2"` answers 204 and leaves the store as it was. -/
theorem remove_crossUser_noop_witness :
    removeTask [taskU1] "u2" "t1" = ([taskU1], 204) :=
  remove_crossUser_noop [taskU1] "u2" "t1"
    (by intro t htdb _; simp at htdb; subst htdb; decide)

/-- C5 counterexample: outside production (`NODE_ENV !== 'production'`),
the `/auth/forgot` response carries the raw reset token exactly when the
email exists, so the two runs (email present vs. absent) are
distinguishable — the claim's unconditional indistinguishability fails. -/
theorem requestReset_enumeration_counterexample :
    (requestPasswordReset [userAlice] "alice@example.com" "tok" 0 idHash false).2
      ≠ (requestPasswordReset [] "alice@example.com" "tok" 0 idHash false).2 := by
  decide

/-- C5 (amended): `login` returns the identical `InvalidCredentials`
error (status 401) for "no such user" and for "wrong password", and in
production `requestPasswordReset` answers the constant `{ok: true}`
whatever the store and email — two-run indistinguishability holds there;
outside production the response additionally carries the raw token when
the email exists. -/
theorem anti_enumeration (db : List UserRec) (email pw raw : String) (now : Nat)
    (sha : String → String) (cmp : String → String → Bool) (u : UserRec) :
    (db.find? (fun v => v.email == email) = none →
        login db email pw cmp = Except.error AuthErr.invalidCredentials)
    ∧ (db.find? (fun v => v.email == email) = some u → cmp pw u.passwordHash = false →
        login db email pw cmp = Except.error AuthErr.invalidCredentials)
    ∧ (requestPasswordReset db email raw now sha true).2 = { ok := true, token := none } := by
  refine ⟨?_, ?_, ?_⟩
  · intro h
    simp [login, h]
  · intro h hc
    simp [login, h, hc]
  · cases hfind : db.find? (fun v => v.email == email) with
    | none => simp [requestPasswordReset, hfind]
    | some w => simp [requestPasswordReset, hfind]

/-- Witness for C5 (amended): on a store holding only `userAlice`, a
login with the wrong password fails with exactly `InvalidCredentials`. -/
theorem anti_enumeration_witness :
    login [userAlice] "alice@example.com" "wrong" eqCompare
      = Except.error AuthErr.invalidCredentials :=
  (anti_enumeration [userAlice] "alice@example.com" "wrong" "tok" 0 idHash
    eqCompare userAlice).2.1 (by decide) (by decide)

/-- C8 evaluation at the failing input: the wire query
`?completed=false` passes `listQuerySchema` (via `z.coerce.boolean()`,
i.e. JavaScript `Boolean("false") = true`) and the query builder emits
the constraint `completed = true` — not the supplied boolean `false`. -/
theorem completed_coercion_eval :
    filterOfWire "u1" wireCompletedFalse
      = some { user := "u1", completed := some true }
    ∧ coerceBoolean "false" = true
    ∧ some true ≠ some false := by
  decide

/-- C2: a reset token is single-use — for a user holding the matching
token hash with an unexpired window (and no other user sharing that hash
or uid), the first `completeReset` succeeds, the user's two reset fields
are cleared, and a second `completeReset` with the same raw token fails
with `InvalidOrExpiredResetToken`, leaving the store unchanged. -/
theorem resetToken_single_use (db : List UserRec) (u : UserRec)
    (raw pw pw2 : String) (nm nm2 : Option String) (e now now2 : Nat)
    (sha bc : String → String)
    (hu : u ∈ db) (hhash : u.passwordResetTokenHash = some (sha raw))
    (hexp : u.passwordResetExpires = some e) (hvalid : now < e)
    (huid : ∀ v ∈ db, v.uid = u.uid → v = u)
    (hunique : ∀ v ∈ db, v.passwordResetTokenHash = some (sha raw) → v = u) :
    (∃ pub, (resetPassword db raw pw nm now sha bc).2 = Except.ok pub)
    ∧ (∀ v ∈ (resetPassword db raw pw nm now sha bc).1, v.uid = u.uid →
        v.passwordResetTokenHash = none ∧ v.passwordResetExpires = none)
    ∧ resetPassword (resetPassword db raw pw nm now sha bc).1 raw pw2 nm2 now2 sha bc
        = ((resetPassword db raw pw nm now sha bc).1,
           Except.error AuthErr.invalidOrExpiredResetToken) := by
  have hfind : db.find? (resetMatches (sha raw) now) = some u := by
    refine find?_eq_some_of_unique _ hu ?_ ?_
    · simp [resetMatches, hhash, hexp, hvalid]
    · intro v hv hpv
      simp only [resetMatches, Bool.and_eq_true, beq_iff_eq] at hpv
      exact hunique v hv hpv.1
  have hrun1 : (resetPassword db raw pw nm now sha bc).1
      = db.map (fun v => if v.uid == u.uid then
          { u with
            passwordHash := bc pw
            name := (match nm with
              | some n => if n.trim == "" then u.name else some n.trim
              | none => u.name)
            passwordResetTokenHash := none
            passwordResetExpires := none }
          else v) := by
    simp [resetPassword, hfind]
  refine ⟨?_, ?_, ?_⟩
  · simp [resetPassword, hfind]
  · intro v hv hvuid
    rw [hrun1] at hv
    rcases List.mem_map.mp hv with ⟨w, hw, hfw⟩
    by_cases hwu : w.uid == u.uid
    · rw [if_pos hwu] at hfw
      subst hfw
      exact ⟨rfl, rfl⟩
    · rw [if_neg hwu] at hfw
      subst hfw
      exact absurd (beq_iff_eq.mpr hvuid) hwu
  · rw [hrun1]
    apply resetPassword_fails_of_no_match
    intro v hv
    rcases List.mem_map.mp hv with ⟨w, hw, hfw⟩
    by_cases hwu : w.uid == u.uid
    · rw [if_pos hwu] at hfw
      subst hfw
      simp [resetMatches]
    · rw [if_neg hwu] at hfw
      subst hfw
      cases hph : w.passwordResetTokenHash == some (sha raw)
      · simp [resetMatches, hph]
      · have hwequ : w = u := hunique w hw (beq_iff_eq.mp hph)
        subst hwequ
        exact absurd (beq_iff_eq.mpr rfl) hwu

/-- Witness for C2: with the concrete pending user, the second
`completeReset` with the same raw token fails and leaves the store as the
first call left it. -/
theorem resetToken_single_use_witness :
    resetPassword (resetPassword [userPending] "T" "np" none 5 idHash idHash).1
        "T" "np2" none 7 idHash idHash
      = ((resetPassword [userPending] "T" "np" none 5 idHash idHash).1,
         Except.error AuthErr.invalidOrExpiredResetToken) :=
  (resetToken_single_use [userPending] userPending "T" "np" "np2" none none 10 5 7
    idHash idHash (by simp) rfl rfl (by decide)
    (by intro v hv _; simpa using hv)
    (by intro v hv _; simpa using hv)).2.2

/-- C3: reset-token expiry — `requestReset` stores expiry = creation
time + exactly one hour (3600000 ms), and at any call instant at or after
that expiry `completeReset` fails with `InvalidOrExpiredResetToken` even
though the presented raw token's hash matches the stored hash, leaving
the store unchanged. -/
theorem resetToken_expiry (db : List UserRec) (u : UserRec) (email raw pw : String)
    (nm : Option String) (t : Nat) (sha bc : String → String) (prod : Bool)
    (hu : u ∈ db) (hemail : u.email = email)
    (hmail_uniq : ∀ v ∈ db, v.email = email → v = u)
    (hnoother : ∀ v ∈ db, v.uid ≠ u.uid → v.passwordResetTokenHash ≠ some (sha raw)) :
    (afterRequest u raw t sha ∈ (requestPasswordReset db email raw t sha prod).1
      ∧ (afterRequest u raw t sha).passwordResetTokenHash = some (sha raw)
      ∧ (afterRequest u raw t sha).passwordResetExpires = some (t + 60 * 60 * 1000))
    ∧ (∀ now2, t + 60 * 60 * 1000 ≤ now2 →
        resetPassword (requestPasswordReset db email raw t sha prod).1 raw pw nm now2 sha bc
          = ((requestPasswordReset db email raw t sha prod).1,
             Except.error AuthErr.invalidOrExpiredResetToken)) := by
  have heff := requestPasswordReset_effect db u email raw t sha prod hu hemail hmail_uniq
  constructor
  · refine ⟨?_, rfl, rfl⟩
    rw [heff]
    have hmem := List.mem_map_of_mem
      (fun v => if v.uid == u.uid then afterRequest u raw t sha else v) hu
    simpa using hmem
  · intro now2 hle
    rw [heff]
    apply resetPassword_fails_of_no_match
    intro v hv
    rcases List.mem_map.mp hv with ⟨w, hw, hfw⟩
    by_cases hwu : w.uid == u.uid
    · rw [if_pos hwu] at hfw
      subst hfw
      simp only [resetMatches, afterRequest, resetWindowMs, Bool.and_eq_false_iff]
      right
      simp only [decide_eq_false_iff_not]
      omega
    · rw [if_neg hwu] at hfw
      subst hfw
      cases hph : w.passwordResetTokenHash == some (sha raw)
      · simp [resetMatches, hph]
      · exact absurd (beq_iff_eq.mp hph)
          (hnoother w hw (fun h => hwu (beq_iff_eq.mpr h)))

/-- C4: at most one valid reset token per user — after a second
`requestReset` on the same email, the raw token from the first request
always fails with `InvalidOrExpiredResetToken` (the overwrite discarded
its hash), while the second request's raw token still succeeds before its
expiry. -/
theorem resetToken_overwrite (db : List UserRec) (u : UserRec)
    (email raw1 raw2 pw : String) (nm : Option String) (t1 t2 : Nat)
    (sha bc : String → String) (prod : Bool)
    (hu : u ∈ db) (hemail : u.email = email)
    (hmail_uniq : ∀ v ∈ db, v.email = email → v = u)
    (hno1 : ∀ v ∈ db, v.uid ≠ u.uid → v.passwordResetTokenHash ≠ some (sha raw1))
    (hno2 : ∀ v ∈ db, v.uid ≠ u.uid → v.passwordResetTokenHash ≠ some (sha raw2))
    (hdiff : sha raw1 ≠ sha raw2) :
    (∀ now3, resetPassword (afterTwoRequests db email raw1 raw2 t1 t2 sha prod)
          raw1 pw nm now3 sha bc
        = (afterTwoRequests db email raw1 raw2 t1 t2 sha prod,
           Except.error AuthErr.invalidOrExpiredResetToken))
    ∧ (∀ now3, now3 < t2 + 60 * 60 * 1000 →
        ∃ pub, (resetPassword (afterTwoRequests db email raw1 raw2 t1 t2 sha prod)
            raw2 pw nm now3 sha bc).2 = Except.ok pub) := by
  have heff1 := requestPasswordReset_effect db u email raw1 t1 sha prod hu hemail hmail_uniq
  have hu1cap : afterRequest u raw1 t1 sha ∈ (requestPasswordReset db email raw1 t1 sha prod).1 := by
    rw [heff1]
    have hmem := List.mem_map_of_mem
      (fun v => if v.uid == u.uid then afterRequest u raw1 t1 sha else v) hu
    simpa using hmem
  have hmail_uniq1 : ∀ v ∈ (requestPasswordReset db email raw1 t1 sha prod).1,
      v.email = email → v = afterRequest u raw1 t1 sha := by
    rw [heff1]
    intro v hv hve
    rcases List.mem_map.mp hv with ⟨w, hw, hfw⟩
    by_cases hwu : w.uid == u.uid
    · rw [if_pos hwu] at hfw
      exact hfw.symm
    · rw [if_neg hwu] at hfw
      subst hfw
      have hweq : w = u := hmail_uniq w hw hve
      exact absurd (beq_iff_eq.mpr (by rw [hweq])) hwu
  have heff2 := requestPasswordReset_effect
    (requestPasswordReset db email raw1 t1 sha prod).1 (afterRequest u raw1 t1 sha)
    email raw2 t2 sha prod hu1cap hemail hmail_uniq1
  constructor
  · intro now3
    simp only [afterTwoRequests]
    rw [heff2, heff1]
    apply resetPassword_fails_of_no_match
    intro v hv
    rcases List.mem_map.mp hv with ⟨w1, hw1, hfw1⟩
    rcases List.mem_map.mp hw1 with ⟨w, hw, hfw⟩
    by_cases hwu : w.uid == u.uid
    · rw [if_pos hwu] at hfw
      subst hfw
      rw [if_pos (by simp)] at hfw1
      subst hfw1
      simp [resetMatches, afterRequest, Ne.symm hdiff]
    · rw [if_neg hwu] at hfw
      subst hfw
      rw [if_neg (by simpa [afterRequest] using hwu)] at hfw1
      subst hfw1
      cases hph : w.passwordResetTokenHash == some (sha raw1)
      · simp [resetMatches, hph]
      · exact absurd (beq_iff_eq.mp hph)
          (hno1 w hw (fun h => hwu (beq_iff_eq.mpr h)))
  · intro now3 hlt
    have hfind : (afterTwoRequests db email raw1 raw2 t1 t2 sha prod).find?
        (resetMatches (sha raw2) now3)
        = some (afterRequest (afterRequest u raw1 t1 sha) raw2 t2 sha) := by
      simp only [afterTwoRequests]
      rw [heff2, heff1]
      refine find?_eq_some_of_unique _ ?_ ?_ ?_
      · have h1 := List.mem_map_of_mem
          (fun v => if v.uid == u.uid then afterRequest u raw1 t1 sha else v) hu
        have h1b : afterRequest u raw1 t1 sha
            ∈ (db.map (fun v => if v.uid == u.uid then afterRequest u raw1 t1 sha else v)) := by
          simpa using h1
        have h2 := List.mem_map_of_mem
          (fun v => if v.uid == (afterRequest u raw1 t1 sha).uid then
            afterRequest (afterRequest u raw1 t1 sha) raw2 t2 sha else v) h1b
        simpa using h2
      · simp only [resetMatches, afterRequest, resetWindowMs, Bool.and_eq_true, beq_iff_eq,
          decide_eq_true_eq]
        exact ⟨trivial, by omega⟩
      · intro v hv hpv
        rcases List.mem_map.mp hv with ⟨w1, hw1, hfw1⟩
        rcases List.mem_map.mp hw1 with ⟨w, hw, hfw⟩
        by_cases hwu : w.uid == u.uid
        · rw [if_pos hwu] at hfw
          subst hfw
          rw [if_pos (by simp)] at hfw1
          exact hfw1.symm
        · rw [if_neg hwu] at hfw
          subst hfw
          rw [if_neg (by simpa [afterRequest] using hwu)] at hfw1
          subst hfw1
          simp only [resetMatches, Bool.and_eq_true, beq_iff_eq] at hpv
          exact absurd hpv.1 (hno2 w hw (fun h => hwu (beq_iff_eq.mpr h)))
    cases hres : (resetPassword (afterTwoRequests db email raw1 raw2 t1 t2 sha prod)
        raw2 pw nm now3 sha bc).2 with
    | error e =>
      exfalso
      simp [resetPassword, hfind] at hres
    | ok pub => exact ⟨pub, rfl⟩

/-- Witness for C3: requesting a reset at time 0 and completing exactly at
the expiry instant 3600000 fails with `InvalidOrExpiredResetToken`. -/
theorem resetToken_expiry_witness :
    resetPassword (requestPasswordReset [userAlice] "alice@example.com" "tok" 0 idHash true).1
        "tok" "np" none 3600000 idHash idHash
      = ((requestPasswordReset [userAlice] "alice@example.com" "tok" 0 idHash true).1,
         Except.error AuthErr.invalidOrExpiredResetToken) :=
  (resetToken_expiry [userAlice] userAlice "alice@example.com" "tok" "np" none 0
    idHash idHash true (by simp) rfl
    (by intro v hv _; simpa using hv)
    (by intro v hv hne; simp at hv; subst hv; exact absurd rfl hne)).2
    3600000 (by norm_num)

/-- Witness for C4: after two reset requests on the same email, the first
raw token is rejected with `InvalidOrExpiredResetToken` and the store is
unchanged. -/
theorem resetToken_overwrite_witness :
    resetPassword (afterTwoRequests [userAlice] "alice@example.com" "tok1" "tok2" 0 1 idHash true)
        "tok1" "np" none 2 idHash idHash
      = (afterTwoRequests [userAlice] "alice@example.com" "tok1" "tok2" 0 1 idHash true,
         Except.error AuthErr.invalidOrExpiredResetToken) :=
  (resetToken_overwrite [userAlice] userAlice "alice@example.com" "tok1" "tok2" "np" none 0 1
    idHash idHash true (by simp) rfl
    (by intro v hv _; simpa using hv)
    (by intro v hv hne; simp at hv; subst hv; exact absurd rfl hne)
    (by intro v hv hne; simp at hv; subst hv; exact absurd rfl hne)
    (by decide)).1 2

end TaskManager
